import Mathlib

set_option maxRecDepth 40000

/-
Verification of the adaptive data-normalization pipeline of
pulse_retention_ai (backend/app/services/dynamic_llm_normalizer.py and
backend/app/services/llm_normalizer.py), as a shallow embedding in Lean.

External effects (the HTTP generation call, the sandboxed subprocess, the
filesystem read of the produced CSV) are modelled by per-attempt oracles;
everything the Python modules compute themselves (response cleaning,
the static contract checker, prompt construction, output validation and
the repair loop) is translated directly.
-/

namespace PulseRetention

/-! ## Basic string machinery (embedding of Python `in`, `strip`, `replace`) -/

/-- Python whitespace set used by `str.strip` (ASCII part). -/
def pyIsSpace (c : Char) : Bool :=
  c == ' ' || c == '\x09' || c == '\x0a' || c == '\x0d' || c == '\x0b' || c == '\x0c'

/-- Characters of `str.strip()`: drop leading and trailing whitespace. -/
def stripChars (l : List Char) : List Char :=
  ((l.dropWhile pyIsSpace).reverse.dropWhile pyIsSpace).reverse

/-- Embedding of Python `str.strip()`. -/
def pyStrip (s : String) : String :=
  String.mk (stripChars s.toList)

/-- `charsPre pat l` tests whether `pat` is an initial segment of `l`. -/
def charsPre : List Char → List Char → Bool
  | [], _ => true
  | _ :: _, [] => false
  | a :: as, b :: bs => a == b && charsPre as bs

/-- `charsWithin pat l` tests whether `pat` occurs contiguously inside `l`. -/
def charsWithin (pat : List Char) : List Char → Bool
  | [] => charsPre pat []
  | b :: bs => charsPre pat (b :: bs) || charsWithin pat bs

/-- Embedding of Python `needle in hay` on strings. -/
def strContains (hay needle : String) : Bool :=
  charsWithin needle.toList hay.toList

/-- Embedding of Python `p.startswith(pre)`. -/
def strStarts (p pre : String) : Bool :=
  charsPre pre.toList p.toList

/-- One fuelled pass of Python `str.replace` (left-to-right, non-overlapping);
the fuel is always initialised to the text length plus one, which a match or a
one-character advance can never exhaust, so the fuel case is unreachable. -/
def replaceSubF (pat repl : List Char) : Nat → List Char → List Char
  | 0, l => l
  | _ + 1, [] => []
  | fuel + 1, c :: cs =>
    if pat.isEmpty then c :: cs
    else if charsPre pat (c :: cs) then
      repl ++ replaceSubF pat repl fuel ((c :: cs).drop pat.length)
    else c :: replaceSubF pat repl fuel cs

/-- Embedding of Python `s.replace(pat, repl)` (all occurrences, left to right).
Only called with non-empty patterns, matching the source. -/
def strReplace (s pat repl : String) : String :=
  String.mk (replaceSubF pat.toList repl.toList (s.toList.length + 1) s.toList)

/-! ## The two regex substitutions of `clean_ai_response`

The source runs `re.sub(r"<\s*/?thought\s*>.*?</\s*thought\s*>", "", text,
flags=IGNORECASE|DOTALL)` and then `re.sub(r"<[^>]+>", "", text)`.
Both are deterministic scans, embedded below; `\s` is embedded by the
ASCII whitespace class. -/

/-- Split at the first `>` character: returns the (``>``-free) part before it
and the part after it. -/
def splitAtGt : List Char → Option (List Char × List Char)
  | [] => none
  | c :: cs =>
    if c == '>' then some ([], cs)
    else
      match splitAtGt cs with
      | none => none
      | some (pre, post) => some (c :: pre, post)

/-- Fuelled scan of `re.sub(r"<[^>]+>", "", ·)`: at each `<`, if a later `>`
exists with at least one character in between, the whole span is removed and
scanning resumes after it; otherwise the scan advances one character. -/
def subAngleF : Nat → List Char → List Char
  | 0, l => l
  | _ + 1, [] => []
  | fuel + 1, c :: cs =>
    if c == '<' then
      match splitAtGt cs with
      | some (pre, post) =>
        if pre.isEmpty then c :: subAngleF fuel cs else subAngleF fuel post
      | none => c :: subAngleF fuel cs
    else c :: subAngleF fuel cs

/-- `re.sub(r"<[^>]+>", "", ·)` on a character list. -/
def subAngle (l : List Char) : List Char :=
  subAngleF (l.length + 1) l

/-- Drop `\s*` (greedy; deterministic here since whitespace never overlaps the
following literal characters). -/
def dropSpacesL (l : List Char) : List Char :=
  l.dropWhile pyIsSpace

/-- Match a literal word case-insensitively at the head, returning the rest. -/
def matchCI : List Char → List Char → Option (List Char)
  | [], l => some l
  | _ :: _, [] => none
  | p :: ps, c :: cs => if c.toLower == p then matchCI ps cs else none

def thoughtChars : List Char := ['t', 'h', 'o', 'u', 'g', 'h', 't']

/-- Match `<\s*/?thought\s*>` (case-insensitive) at the head. -/
def matchOpenTag : List Char → Option (List Char)
  | '<' :: rest =>
    let r1 := dropSpacesL rest
    let r2 := match r1 with
      | '/' :: t => t
      | other => other
    (match matchCI thoughtChars r2 with
     | none => none
     | some r3 =>
       match dropSpacesL r3 with
       | '>' :: r4 => some r4
       | _ => none)
  | _ => none

/-- Match `</\s*thought\s*>` (case-insensitive) at the head. -/
def matchCloseTag : List Char → Option (List Char)
  | '<' :: '/' :: rest =>
    (match matchCI thoughtChars (dropSpacesL rest) with
     | none => none
     | some r3 =>
       match dropSpacesL r3 with
       | '>' :: r4 => some r4
       | _ => none)
  | _ => none

/-- Lazy `.*?</\s*thought\s*>`: earliest position where the close tag matches;
returns the remainder after it. -/
def findClose : List Char → Option (List Char)
  | [] => none
  | c :: cs =>
    match matchCloseTag (c :: cs) with
    | some rest => some rest
    | none => findClose cs

/-- Fuelled scan of the `<thought>...</thought>` substitution. A successful
open-tag match always consumes at least one character, so fuel equal to the
length plus one is never exhausted. -/
def subThoughtF : Nat → List Char → List Char
  | 0, l => l
  | _ + 1, [] => []
  | fuel + 1, c :: cs =>
    match matchOpenTag (c :: cs) with
    | some afterOpen =>
      (match findClose afterOpen with
       | some afterClose => subThoughtF fuel afterClose
       | none => c :: subThoughtF fuel cs)
    | none => c :: subThoughtF fuel cs

/-- `re.sub(r"<\s*/?thought\s*>.*?</\s*thought\s*>", "", ·)` on a char list. -/
def subThought (l : List Char) : List Char :=
  subThoughtF (l.length + 1) l

/-- Embedding of `clean_ai_response` (identical in both normalizer modules):
drop `<thought>` blocks, drop any remaining `<...>` span, remove markdown
fences, then strip. -/
def clean_ai_response (raw : String) : String :=
  let t1 := subThought raw.toList
  let t2 := subAngle t1
  let s2 := String.mk t2
  let s3 := strReplace s2 "```python" ""
  let s4 := strReplace s3 "```" ""
  pyStrip s4

/-! ## Contract checker (`script_contract_ok`, identical in both modules) -/

/-- `len(code.encode("utf-8"))`. -/
def utf8Len (s : String) : Nat :=
  s.toList.foldl (fun n c => n + c.utf8Size) 0

/-- The fixed denylist `FORBIDDEN_SNIPPETS` of the source. -/
def FORBIDDEN_SNIPPETS : List String :=
  ["subprocess", "requests", "httpx", "aiohttp", "eval(", "exec(",
   "os.system", "shutil.rmtree", "shutil.rmdtree"]

def mainGuardDq : String := "if __name__ == \"__main__\""

def mainGuardSq : String := "if __name__ == \x27__main__\x27"

def defCleanMsg : String :=
  "Missing required function definition: def clean(input_path, output_path)."

def mainGuardMsg : String :=
  "Missing required main guard: if __name__ == \x27__main__\x27: ... clean(sys.argv[1], sys.argv[2])."

def sizeMsg (max_bytes : Nat) : String :=
  "Script is too large (> " ++ toString max_bytes ++ " bytes)."

def forbiddenMsg (s : String) : String :=
  "Forbidden pattern detected: \x27" ++ s ++ "\x27."

/-- Embedding of `script_contract_ok` (the Python default `max_bytes=40_000` is
passed explicitly by all callers below). The main-guard condition mirrors the
Python `A or B and C` precedence: `A or (B and C)`. -/
def script_contract_ok (code : String) (max_bytes : Nat) : Bool × List String :=
  let errors : List String := []
  let errors := if utf8Len code > max_bytes then errors ++ [sizeMsg max_bytes] else errors
  let errors := if strContains code "def clean(" = false then errors ++ [defCleanMsg] else errors
  let errors :=
    if (!strContains code "__name__" ||
        (!strContains code mainGuardDq && !strContains code mainGuardSq)) = true then
      errors ++ [mainGuardMsg]
    else errors
  let errors := errors ++
    FORBIDDEN_SNIPPETS.filterMap
      (fun s => if strContains code s then some (forbiddenMsg s) else none)
  (errors.isEmpty, errors)

/-- The size rule family of the checker, in isolation. -/
def sizeViolations (code : String) (max_bytes : Nat) : List String :=
  if utf8Len code > max_bytes then [sizeMsg max_bytes] else []

/-- The required-shape rule family of the checker, in isolation. -/
def shapeViolations (code : String) : List String :=
  (if strContains code "def clean(" = false then [defCleanMsg] else []) ++
  (if (!strContains code "__name__" ||
       (!strContains code mainGuardDq && !strContains code mainGuardSq)) = true then
     [mainGuardMsg]
   else [])

/-- The denylist rule family of the checker, in isolation. -/
def denylistViolations (code : String) : List String :=
  FORBIDDEN_SNIPPETS.filterMap
    (fun s => if strContains code s then some (forbiddenMsg s) else none)

/-! ## Output validators

The produced output file is external state; it is modelled by `OutFile`
(missing, unreadable, or a parsed table). A parsed CSV is a `DataFrame`:
column names plus rows of cells, a cell being `none` for a missing value
(pandas `NaN`). pandas parsing behaviour (`to_datetime`, `to_numeric`,
`isin`) is an external-library parameter, bundled in `PandasSem`. -/

structure DataFrame where
  cols : List String
  rows : List (List (Option String))
deriving DecidableEq

inductive OutFile where
  | absent
  | unreadable (msg : String)
  | table (df : DataFrame)
deriving DecidableEq

/-- Insert into a ≤-sorted list of strings (used to embed Python `sorted`). -/
def insertSorted (x : String) : List String → List String
  | [] => [x]
  | y :: ys => if decide (x ≤ y) then x :: y :: ys else y :: insertSorted x ys

/-- Embedding of Python `sorted` on a list of strings. -/
def sortStrings : List String → List String
  | [] => []
  | x :: xs => insertSorted x (sortStrings xs)

/-- Collapse adjacent duplicates of a sorted list (set semantics). -/
def dedupAdj : List String → List String
  | [] => []
  | [x] => [x]
  | x :: y :: r => if x == y then dedupAdj (y :: r) else x :: dedupAdj (y :: r)

/-- Embedding of `sorted(set(required) - set(actual))`. -/
def setMinusSorted (required actual : List String) : List String :=
  dedupAdj (sortStrings (required.filter (fun c => !actual.contains c)))

def joinComma : List String → String
  | [] => ""
  | [x] => x
  | x :: y :: r => x ++ ", " ++ joinComma (y :: r)

/-- Python `repr` of a simple string (single quotes). -/
def pyStrRepr (s : String) : String := "\x27" ++ s ++ "\x27"

/-- Python `str` of a list of strings, as rendered inside an f-string. -/
def pyListRepr (xs : List String) : String :=
  "[" ++ joinComma (xs.map pyStrRepr) ++ "]"

/-- Embedding of `validate_output_csv` of `dynamic_llm_normalizer.py`:
missing-columns check and zero-row check only. -/
def validate_output_csv_dyn (path : String) (out : OutFile)
    (expected_schema : List (String × String)) : Bool × List String :=
  match out with
  | .absent => (false, ["Output CSV file not found at " ++ path ++ "."])
  | .unreadable msg => (false, ["Failed to read output CSV: " ++ msg])
  | .table df =>
    let required_cols := expected_schema.map Prod.fst
    let missing := setMinusSorted required_cols df.cols
    let errors : List String := []
    let errors :=
      if missing.isEmpty = false then
        errors ++ ["Missing required columns: " ++ pyListRepr missing]
      else errors
    let errors :=
      if df.rows.length == 0 then errors ++ ["Output CSV is empty (0 rows)."] else errors
    (errors.isEmpty, errors)

/-- External pandas parsing behaviour, as parameters: `dateOk s` holds when
`pd.to_datetime` parses `s` (a `none` cell always coerces to `NaT`);
`numVal s` is the value `pd.to_numeric` yields, `none` when coerced to `NaN`;
`zeroOne c` is `c.isin([0, 1])` under pandas dtype semantics (`false` on
`NaN`). -/
structure PandasSem where
  dateOk : String → Bool
  numVal : String → Option ℚ
  zeroOne : Option String → Bool

/-- Keys of `STANDARD_SCHEMA` in `app/helpers/csv_processor.py`. -/
def STANDARD_SCHEMA_KEYS : List String :=
  ["customer_id", "event_date", "amount", "event_type", "churn_label"]

/-- First index of a column, like pandas column lookup. -/
def colIndex (df : DataFrame) (name : String) : Option Nat :=
  df.cols.findIdx? (fun c => c == name)

/-- The cells of a named column (empty when the column is absent). -/
def colCells (df : DataFrame) (name : String) : List (Option String) :=
  match colIndex df name with
  | none => []
  | some i => df.rows.map (fun r => r.getD i none)

def custNullMsg (n : Nat) : String :=
  "Found " ++ toString n ++ " null values in customer_id."

def dateInvalidMsg (n : Nat) : String :=
  "event_date column contains " ++ toString n ++ " invalid dates."

def amountNegMsg (n : Nat) : String :=
  "Found " ++ toString n ++ " negative values in amount column."

def churnInvalidMsg (n : Nat) : String :=
  "Found " ++ toString n ++ " invalid churn_label values (must be 0 or 1)."

/-- Embedding of `validate_output_csv` of `llm_normalizer.py` (fixed standard
schema; includes the value-level checks on customer_id, event_date, amount and
churn_label). -/
def validate_output_csv_std (sem : PandasSem) (path : String) (out : OutFile) :
    Bool × List String :=
  match out with
  | .absent => (false, ["Output CSV file not found at " ++ path ++ "."])
  | .unreadable msg => (false, ["Failed to read output CSV: " ++ msg])
  | .table df =>
    let missing := setMinusSorted STANDARD_SCHEMA_KEYS df.cols
    let errors : List String := []
    let errors :=
      if missing.isEmpty = false then
        errors ++ ["Missing required columns: " ++ pyListRepr missing]
      else errors
    let errors :=
      if df.cols.contains "customer_id" then
        let null_count := (colCells df "customer_id").countP (fun c => c.isNone)
        if null_count > 0 then errors ++ [custNullMsg null_count] else errors
      else errors
    let errors :=
      if df.cols.contains "event_date" then
        let invalid_count := (colCells df "event_date").countP
          (fun c => match c with | none => true | some s => !sem.dateOk s)
        if invalid_count > 0 then errors ++ [dateInvalidMsg invalid_count] else errors
      else errors
    let errors :=
      if df.cols.contains "amount" then
        let neg_count := (colCells df "amount").countP
          (fun c => match c with
            | none => false
            | some s => match sem.numVal s with
              | none => false
              | some q => decide (q < 0))
        if neg_count > 0 then errors ++ [amountNegMsg neg_count] else errors
      else errors
    let errors :=
      if df.cols.contains "churn_label" then
        let invalid := (colCells df "churn_label").countP (fun c => !sem.zeroOne c)
        if invalid > 0 then errors ++ [churnInvalidMsg invalid] else errors
      else errors
    (errors.isEmpty, errors)

/-- Missing-columns family of the dynamic validator, in isolation. -/
def dynMissingErrors (df : DataFrame) (expected_schema : List (String × String)) :
    List String :=
  let missing := setMinusSorted (expected_schema.map Prod.fst) df.cols
  if missing.isEmpty = false then ["Missing required columns: " ++ pyListRepr missing]
  else []

/-- Zero-rows family of the dynamic validator, in isolation. -/
def dynEmptyErrors (df : DataFrame) : List String :=
  if df.rows.length == 0 then ["Output CSV is empty (0 rows)."] else []

/-- Missing-columns family of the standard-schema validator, in isolation. -/
def stdMissingErrors (df : DataFrame) : List String :=
  let missing := setMinusSorted STANDARD_SCHEMA_KEYS df.cols
  if missing.isEmpty = false then ["Missing required columns: " ++ pyListRepr missing]
  else []

/-- customer_id null-value family of the standard-schema validator. -/
def stdCustomerErrors (df : DataFrame) : List String :=
  if df.cols.contains "customer_id" then
    let null_count := (colCells df "customer_id").countP (fun c => c.isNone)
    if null_count > 0 then [custNullMsg null_count] else []
  else []

/-- event_date parseability family of the standard-schema validator. -/
def stdDateErrors (sem : PandasSem) (df : DataFrame) : List String :=
  if df.cols.contains "event_date" then
    let invalid_count := (colCells df "event_date").countP
      (fun c => match c with | none => true | some s => !sem.dateOk s)
    if invalid_count > 0 then [dateInvalidMsg invalid_count] else []
  else []

/-- amount negativity family of the standard-schema validator. -/
def stdAmountErrors (sem : PandasSem) (df : DataFrame) : List String :=
  if df.cols.contains "amount" then
    let neg_count := (colCells df "amount").countP
      (fun c => match c with
        | none => false
        | some s => match sem.numVal s with
          | none => false
          | some q => decide (q < 0))
    if neg_count > 0 then [amountNegMsg neg_count] else []
  else []

/-- churn_label validity family of the standard-schema validator. -/
def stdChurnErrors (sem : PandasSem) (df : DataFrame) : List String :=
  if df.cols.contains "churn_label" then
    let invalid := (colCells df "churn_label").countP (fun c => !sem.zeroOne c)
    if invalid > 0 then [churnInvalidMsg invalid] else []
  else []

/-! ## Prompt builder (`build_user_prompt` of `dynamic_llm_normalizer.py`) -/

/-- Embedding of `"\n".join(parts)`. -/
def joinLines : List String → String
  | [] => ""
  | [x] => x
  | x :: y :: rest => x ++ "\n" ++ joinLines (y :: rest)

def GOAL_LINE : String :=
  "Write a script that follows the EXPECTED_SCHEMA contract described in the system message."

def CLOSING_LINE : String :=
  "Please output a FULL corrected Python script that obeys the same contract."

def NO_DETAILS_LINE : String :=
  "- Script failed, but no specific error details were captured."

/-- The list of lines assembled by `build_user_prompt` before joining. Mirrors
the Python truthiness tests: a non-empty `last_error_list` wins, otherwise a
non-`None`, non-empty `last_error_text`, otherwise the fixed fallback line. -/
def userPromptParts (raw_summary : String) (last_script last_error_text : Option String)
    (last_error_list : List String) : List String :=
  let base := ["RAW_CSV_SUMMARY:", raw_summary, "", "GOAL:", GOAL_LINE]
  match last_script with
  | none => base
  | some s =>
    let bullets :=
      if last_error_list.isEmpty = false then
        last_error_list.map (fun e => "- " ++ e)
      else
        match last_error_text with
        | some t => if t = "" then [NO_DETAILS_LINE] else ["- " ++ t]
        | none => [NO_DETAILS_LINE]
    base ++ ["", "PREVIOUS_SCRIPT:", s, "", "ERRORS_TO_FIX:"] ++ bullets ++
      ["", CLOSING_LINE]

/-- Embedding of `build_user_prompt`. -/
def build_user_prompt (raw_summary : String) (last_script last_error_text : Option String)
    (last_error_list : List String) : String :=
  joinLines (userPromptParts raw_summary last_script last_error_text last_error_list)

/-! ## Sandboxed executor (`run_clean_script`): filesystem effect model

The filesystem is a list of present paths. `with tempfile.TemporaryDirectory()`
creates the directory, the script file is written inside it, the subprocess
runs (its result and any paths it creates are the external behaviour), and the
context-manager exit removes the directory and everything under it on every
exit path — normal return, `TimeoutExpired`, or any other exception, which is
what the three `ExecResult` constructors range over. -/

inductive ExecResult where
  | finished (returncode : Int) (stdout stderr : String)
  | timedOut
  | raised (msg : String)
deriving DecidableEq

structure ExecBehavior where
  result : ExecResult
  createdPaths : List String
deriving DecidableEq

/-- A path is a temporary artifact of the call when it is the temporary
directory itself or lies under it. -/
def isTmpArtifact (tmpdir p : String) : Bool :=
  p == tmpdir || strStarts p (tmpdir ++ "/")

/-- Embedding of `run_clean_script`'s filesystem effect: create the temporary
directory and `clean_script.py` inside it, run the child process, then remove
the directory and all its contents unconditionally. -/
def run_clean_script_fs (tmpdir : String) (beh : ExecBehavior) (fs : List String) :
    ExecResult × List String :=
  let fs1 := fs ++ [tmpdir]
  let fs2 := fs1 ++ [tmpdir ++ "/clean_script.py"]
  let fs3 := fs2 ++ beh.createdPaths
  let cleaned := fs3.filter (fun p => !isTmpArtifact tmpdir p)
  (beh.result, cleaned)

/-! ## Repair orchestrator (`normalize_with_dynamic_llm`)

The generation call and the subprocess are external: a per-attempt oracle
gives, for each attempt number, the generation outcome (raw text or a raised
error), the execution outcome, and the state of the output file after the
execution. Everything else is the source's loop, translated line by line.
The run also returns a trace with one record per started attempt (the user
prompt sent, the cleaned script if generation returned, and whether the
executor was invoked). -/

inductive GenError where
  | timeout
  | serviceError (msg : String)
deriving DecidableEq

inductive GenResult where
  | ok (raw : String)
  | error (e : GenError)
deriving DecidableEq

structure AttemptOracle where
  gen : GenResult
  exec : ExecResult
  out : OutFile
deriving DecidableEq

structure LoopState where
  last_script : Option String
  last_error_text : Option String
  last_error_list : List String
  last_stdout : String
deriving DecidableEq

def initState : LoopState := ⟨none, none, [], ""⟩

structure SuccessMeta where
  attempts : Nat
  last_stdout : String
  generated_script : String
deriving DecidableEq

structure FailureMeta where
  attempts : Nat
  last_error_text : Option String
  last_error_list : List String
  last_script : Option String
  last_stdout : String
deriving DecidableEq

/-- Terminal result of one orchestrator run: the source's
`(True, {...})` / `(False, {...})` return values, or a propagated exception. -/
inductive RunOutcome where
  | success (m : SuccessMeta)
  | failure (m : FailureMeta)
  | exn (e : GenError)
deriving DecidableEq

structure AttemptRec where
  prompt : String
  cleaned : Option String
  execInvoked : Bool
deriving DecidableEq

def contractFailText : String :=
  "Generated code does not satisfy the required structure or safety rules."

def timeoutText (script_timeout_sec : Nat) : String :=
  "Script execution timed out after " ++ toString script_timeout_sec ++ " seconds."

def execErrText (m : String) : String :=
  "Unexpected error while executing script: " ++ m

def rcText (rc : Int) : String :=
  "Runtime error: process exited with code " ++ toString rc ++ "."

/-- The `last_error_list` built on a non-zero exit code, with the source's
truncations (`stderr[:1000]`, `stdout[:500]`). -/
def rcList (stdout stderr : String) : List String :=
  let truncated_stderr := if stderr = "" then "" else String.mk (stderr.toList.take 1000)
  let truncated_stdout := if stdout = "" then "" else String.mk (stdout.toList.take 500)
  ["stderr (truncated): " ++ truncated_stderr, "stdout (truncated): " ++ truncated_stdout]

def valFailText : String :=
  "Validation failed: output CSV does not conform to EXPECTED_SCHEMA."

/-- The attempt loop of `normalize_with_dynamic_llm`, with the remaining
attempt budget as recursion fuel: `runFrom ... attempt rem st` is the loop
from iteration `attempt` with `rem` iterations left in `range(1, maxA + 1)`.
On budget exhaustion it returns the source's failure dictionary. -/
def runFrom (oracle : Nat → AttemptOracle) (raw_summary output_csv : String)
    (schema : List (String × String)) (sts maxA : Nat) :
    Nat → Nat → LoopState → RunOutcome × List AttemptRec
  | _, 0, st =>
    (.failure ⟨maxA, st.last_error_text, st.last_error_list, st.last_script,
               st.last_stdout⟩, [])
  | attempt, rem + 1, st =>
    let prompt := build_user_prompt raw_summary st.last_script st.last_error_text
      st.last_error_list
    match (oracle attempt).gen with
    | .error e => (.exn e, [⟨prompt, none, false⟩])
    | .ok raw =>
      let code := clean_ai_response raw
      let contract := script_contract_ok code 40000
      if contract.1 = false then
        let r := runFrom oracle raw_summary output_csv schema sts maxA (attempt + 1) rem
          ⟨some code, some contractFailText, contract.2, st.last_stdout⟩
        (r.1, ⟨prompt, some code, false⟩ :: r.2)
      else
        match (oracle attempt).exec with
        | .timedOut =>
          let r := runFrom oracle raw_summary output_csv schema sts maxA (attempt + 1) rem
            ⟨some code, some (timeoutText sts), [], st.last_stdout⟩
          (r.1, ⟨prompt, some code, true⟩ :: r.2)
        | .raised m =>
          let r := runFrom oracle raw_summary output_csv schema sts maxA (attempt + 1) rem
            ⟨some code, some (execErrText m), [], st.last_stdout⟩
          (r.1, ⟨prompt, some code, true⟩ :: r.2)
        | .finished rc sout serr =>
          if rc ≠ 0 then
            let r := runFrom oracle raw_summary output_csv schema sts maxA (attempt + 1) rem
              ⟨some code, some (rcText rc), rcList sout serr, sout⟩
            (r.1, ⟨prompt, some code, true⟩ :: r.2)
          else
            let v := validate_output_csv_dyn output_csv (oracle attempt).out schema
            if v.1 = false then
              let r := runFrom oracle raw_summary output_csv schema sts maxA (attempt + 1) rem
                ⟨some code, some valFailText, v.2, sout⟩
              (r.1, ⟨prompt, some code, true⟩ :: r.2)
            else
              (.success ⟨attempt, sout, code⟩, [⟨prompt, some code, true⟩])

/-- Embedding of `normalize_with_dynamic_llm`: run the loop from attempt 1
with the full budget and empty repair state. -/
def normalize_with_dynamic_llm (oracle : Nat → AttemptOracle)
    (raw_summary output_csv : String) (schema : List (String × String))
    (sts max_attempts : Nat) : RunOutcome × List AttemptRec :=
  runFrom oracle raw_summary output_csv schema sts max_attempts 1 max_attempts initState

/-! ### Attempt-level derived functions (for stating the claims) -/

/-- Whether the generation call returned normally on this attempt. -/
def genOk (o : AttemptOracle) : Bool :=
  match o.gen with
  | .ok _ => true
  | .error _ => false

/-- The cleaned script of an attempt whose generation call returned. -/
def attemptScript (o : AttemptOracle) : Option String :=
  match o.gen with
  | .ok raw => some (clean_ai_response raw)
  | .error _ => none

/-- The stdout of an attempt whose execution finished. -/
def stdoutOf (o : AttemptOracle) : String :=
  match o.exec with
  | .finished _ s _ => s
  | _ => ""

/-- The attempt passes all three gates: contract check, execution with exit
code 0, and output validation. -/
def attemptPasses (o : AttemptOracle) (output_csv : String)
    (schema : List (String × String)) : Bool :=
  match o.gen with
  | .error _ => false
  | .ok raw =>
    (script_contract_ok (clean_ai_response raw) 40000).1 &&
    (match o.exec with
     | .finished rc _ _ =>
       decide (rc = 0) && (validate_output_csv_dyn output_csv o.out schema).1
     | _ => false)

/-- The attempt fails some gate but its generation call returned, so the loop
records diagnostics and continues. -/
def attemptContinues (o : AttemptOracle) (output_csv : String)
    (schema : List (String × String)) : Bool :=
  genOk o && !attemptPasses o output_csv schema

/-- Whether `run_clean_script` is invoked on this attempt: generation returned
and the contract check passed. -/
def execInvokedOf (o : AttemptOracle) : Bool :=
  match o.gen with
  | .error _ => false
  | .ok raw => (script_contract_ok (clean_ai_response raw) 40000).1

/-- `last_error_text` recorded by a failing attempt (as a function of that
attempt's oracle entry alone). -/
def attemptDiagText (o : AttemptOracle) (sts : Nat) : Option String :=
  match o.gen with
  | .error _ => none
  | .ok raw =>
    if (script_contract_ok (clean_ai_response raw) 40000).1 = false then
      some contractFailText
    else
      match o.exec with
      | .timedOut => some (timeoutText sts)
      | .raised m => some (execErrText m)
      | .finished rc _ _ =>
        if rc ≠ 0 then some (rcText rc) else some valFailText

/-- `last_error_list` recorded by a failing attempt (as a function of that
attempt's oracle entry alone). -/
def attemptDiagList (o : AttemptOracle) (output_csv : String)
    (schema : List (String × String)) : List String :=
  match o.gen with
  | .error _ => []
  | .ok raw =>
    if (script_contract_ok (clean_ai_response raw) 40000).1 = false then
      (script_contract_ok (clean_ai_response raw) 40000).2
    else
      match o.exec with
      | .timedOut => []
      | .raised _ => []
      | .finished rc sout serr =>
        if rc ≠ 0 then rcList sout serr
        else (validate_output_csv_dyn output_csv o.out schema).2

/-- `last_stdout` after an attempt (updated only when execution finished). -/
def stdoutAfter (o : AttemptOracle) (st : LoopState) : String :=
  match o.gen with
  | .error _ => st.last_stdout
  | .ok raw =>
    if (script_contract_ok (clean_ai_response raw) 40000).1 = false then st.last_stdout
    else
      match o.exec with
      | .finished _ sout _ => sout
      | _ => st.last_stdout

/-- The loop state entering the next attempt after a failed continuing
attempt. Its prompt-relevant fields depend only on this attempt's oracle
entry. -/
def nextState (o : AttemptOracle) (output_csv : String)
    (schema : List (String × String)) (sts : Nat) (st : LoopState) : LoopState :=
  ⟨attemptScript o, attemptDiagText o sts,
   attemptDiagList o output_csv schema, stdoutAfter o st⟩

/-- The trace record of one started attempt. -/
def attemptRecOf (raw_summary : String) (o : AttemptOracle) (st : LoopState) :
    AttemptRec :=
  ⟨build_user_prompt raw_summary st.last_script st.last_error_text st.last_error_list,
   attemptScript o, execInvokedOf o⟩

/-! ## Concrete inputs used by counterexamples and witnesses -/

/-- A generated program that satisfies the contract checker and invokes the
entry routine from its guard. -/
def contractPassProg : String :=
  "import sys\ndef clean(input_path, output_path):\n    return None\n\nif __name__ == \"__main__\":\n    clean(sys.argv[1], sys.argv[2])\n"

/-- A generated program failing the contract checker (no `def clean(`, no
guard). -/
def trivialScript : String := "x = 1"

def schemaOne : List (String × String) := [("customer_id", "unique customer identifier")]

def dfOne : DataFrame := ⟨["customer_id"], [[some "1"]]⟩

/-- Every attempt fails the contract check. -/
def oracleAllFail : Nat → AttemptOracle := fun _ => ⟨.ok trivialScript, .timedOut, .absent⟩

/-- Every attempt passes all three gates. -/
def oraclePassFirst : Nat → AttemptOracle :=
  fun _ => ⟨.ok contractPassProg, .finished 0 "done" "", .table dfOne⟩

/-- Attempt 1 fails the contract check; from attempt 2 on the generation call
raises a timeout. -/
def oracleGenErrSecond : Nat → AttemptOracle := fun k =>
  if k == 1 then ⟨.ok trivialScript, .timedOut, .absent⟩
  else ⟨.error .timeout, .timedOut, .absent⟩

/-- A program that contains the required `def clean(` and main-guard
substrings but whose guard never invokes `clean` at all. -/
def guardNoCallProg : String :=
  "def clean(input_path, output_path):\n    return None\n\nif __name__ == \"__main__\":\n    pass\n"

/-- A plain program with two comparison operators: a `<` later followed by a
`>`. -/
def angleProg : String := "x = a < b\ny = c > d"

/-- A plain program with no angle brackets and no fences. -/
def noAngleProg : String := "def clean(a, b):\n    return 1"

/-- An output table whose `customer_id` column contains a missing value and
whose `event_date` value is unparseable. -/
def dfNullId : DataFrame :=
  ⟨["customer_id", "event_date"], [[none, some "not-a-date"]]⟩

def schemaIdDate : List (String × String) :=
  [("customer_id", "unique identifier for the customer"),
   ("event_date", "date of the event")]

/-- A pandas semantics in which nothing parses as a date or number. -/
def semStrict : PandasSem := ⟨fun _ => false, fun _ => none, fun _ => false⟩

def forbiddenProg : String := "import subprocess"

/-! # Theorems -/

/-! ## Substring machinery specifications -/

theorem charsPre_iff (n : List Char) : ∀ l, charsPre n l = true ↔ ∃ y, l = n ++ y := by
  induction n with
  | nil => intro l; simp [charsPre]
  | cons a as ih =>
    intro l
    cases l with
    | nil => simp [charsPre]
    | cons b bs =>
      simp only [charsPre, Bool.and_eq_true, beq_iff_eq, ih, List.cons_append]
      constructor
      · rintro ⟨rfl, y, rfl⟩; exact ⟨y, rfl⟩
      · rintro ⟨y, h⟩
        injection h with h1 h2
        exact ⟨h1.symm, y, h2⟩

theorem charsWithin_iff (n : List Char) : ∀ l, charsWithin n l = true ↔ ∃ x y, l = x ++ n ++ y := by
  intro l
  induction l with
  | nil =>
    simp only [charsWithin, charsPre_iff]
    constructor
    · rintro ⟨y, h⟩; exact ⟨[], y, by simpa using h⟩
    · rintro ⟨x, y, h⟩
      rw [eq_comm, List.append_eq_nil] at h
      obtain ⟨h1, h2⟩ := h
      rw [List.append_eq_nil] at h1
      exact ⟨y, by simp [h1.2, h2]⟩
  | cons b bs ih =>
    simp only [charsWithin, Bool.or_eq_true, charsPre_iff, ih]
    constructor
    · rintro (⟨y, h⟩ | ⟨x, y, rfl⟩)
      · exact ⟨[], y, by simpa using h⟩
      · exact ⟨b :: x, y, by simp⟩
    · rintro ⟨x, y, h⟩
      cases x with
      | nil => exact Or.inl ⟨y, by simpa using h⟩
      | cons c cs =>
        injection h with h1 h2
        exact Or.inr ⟨cs, y, h2⟩

theorem strK_toList_append (a b : String) : (a ++ b).toList = a.toList ++ b.toList := rfl

theorem strContains_iff (hay needle : String) :
    strContains hay needle = true ↔ ∃ x y : List Char, hay.toList = x ++ needle.toList ++ y := by
  simp [strContains, charsWithin_iff]

theorem strContains_trans (a b c : String) (hab : strContains a b = true)
    (hbc : strContains b c = true) : strContains a c = true := by
  rw [strContains_iff] at hab hbc ⊢
  obtain ⟨x, y, hx⟩ := hab
  obtain ⟨u, v, hu⟩ := hbc
  refine ⟨x ++ u, v ++ y, ?_⟩
  simp only [String.toList] at hx hu ⊢
  rw [hx, hu]
  simp [List.append_assoc]

theorem joinLines_split (s : String) :
    ∀ parts : List String, s ∈ parts → ∃ a b : String, joinLines parts = a ++ (s ++ b) := by
  intro parts
  induction parts with
  | nil => intro h; cases h
  | cons x rest ih =>
    intro hmem
    cases rest with
    | nil =>
      have hx : s = x := by simpa using hmem
      exact ⟨"", "", by simp [joinLines, hx]⟩
    | cons y rest2 =>
      rcases List.mem_cons.mp hmem with hx | htail
      · exact ⟨"", "\n" ++ joinLines (y :: rest2), by
          simp [joinLines, hx, String.append_assoc]⟩
      · obtain ⟨a, b, hab⟩ := ih htail
        exact ⟨x ++ "\n" ++ a, b, by
          simp [joinLines, hab, String.append_assoc]⟩

theorem joinLines_contains (parts : List String) (s : String) (hs : s ∈ parts) :
    strContains (joinLines parts) s = true := by
  obtain ⟨a, b, hab⟩ := joinLines_split s parts hs
  rw [strContains_iff, hab]
  exact ⟨a.toList, b.toList, by simp [strK_toList_append]⟩

theorem charsPre_self_append (n y : List Char) : charsPre n (n ++ y) = true :=
  (charsPre_iff n (n ++ y)).mpr ⟨y, rfl⟩

theorem ite_append_extrude {α : Type} (c : Prop) [Decidable c] (e x : List α) :
    (if c then e ++ x else e) = e ++ (if c then x else []) := by
  split_ifs <;> simp

theorem charsWithin_false_of_not_mem (pat l : List Char) (a : Char)
    (ha : a ∈ pat) (hl : a ∉ l) : charsWithin pat l = false := by
  by_contra hcw
  have ht : charsWithin pat l = true := by
    cases hv : charsWithin pat l
    · exact absurd hv hcw
    · rfl
  obtain ⟨x, y, rfl⟩ := (charsWithin_iff pat l).mp ht
  exact hl (by simp [ha])

theorem matchOpenTag_ne {c : Char} (cs : List Char) (h : ¬ c = '<') :
    matchOpenTag (c :: cs) = none := by
  unfold matchOpenTag
  split
  · rename_i rest heq
    injection heq with h1 h2
    exact absurd h1 h
  · rfl

theorem subThoughtF_no_lt : ∀ fuel l, (∀ c ∈ l, ¬ c = '<') → subThoughtF fuel l = l := by
  intro fuel
  induction fuel with
  | zero => intro l _; rfl
  | succ f ih =>
    intro l h
    cases l with
    | nil => rfl
    | cons c cs =>
      have hc : ¬ c = '<' := h c (by simp)
      simp [subThoughtF, matchOpenTag_ne cs hc, ih cs (fun x hx => h x (by simp [hx]))]

theorem subThought_no_lt (l : List Char) (h : ∀ c ∈ l, ¬ c = '<') : subThought l = l :=
  subThoughtF_no_lt _ l h

theorem subAngleF_no_lt : ∀ fuel l, (∀ c ∈ l, ¬ c = '<') → subAngleF fuel l = l := by
  intro fuel
  induction fuel with
  | zero => intro l _; rfl
  | succ f ih =>
    intro l h
    cases l with
    | nil => rfl
    | cons c cs =>
      have hc : ¬ c = '<' := h c (by simp)
      simp [subAngleF, hc, ih cs (fun x hx => h x (by simp [hx]))]

theorem subAngle_no_lt (l : List Char) (h : ∀ c ∈ l, ¬ c = '<') : subAngle l = l :=
  subAngleF_no_lt _ l h

theorem replaceSubF_not_contained (pat repl : List Char) :
    ∀ fuel l, charsWithin pat l = false → replaceSubF pat repl fuel l = l := by
  intro fuel
  induction fuel with
  | zero => intro l _; rfl
  | succ f ih =>
    intro l h
    cases l with
    | nil => rfl
    | cons c cs =>
      have hemp : pat.isEmpty = false := by
        cases pat with
        | nil => simp [charsWithin, charsPre] at h
        | cons p pt => rfl
      have hsplit : charsPre pat (c :: cs) = false ∧ charsWithin pat cs = false := by
        have hw : (charsPre pat (c :: cs) || charsWithin pat cs) = false := h
        simpa using hw
      simp [replaceSubF, hemp, hsplit.1, ih cs hsplit.2]

theorem strK_mk_toList (s : String) : String.mk s.toList = s := rfl

theorem strReplace_not_contained (s pat repl : String)
    (h : charsWithin pat.toList s.toList = false) : strReplace s pat repl = s := by
  unfold strReplace
  rw [replaceSubF_not_contained _ _ _ _ h, strK_mk_toList]

/-- The response cleaner is the identity up to `strip` on text with no `<`
character and no backquote. -/
theorem clean_ai_response_of_plain (s : String)
    (h1 : ∀ c ∈ s.toList, ¬ c = '<') (h2 : ¬ '\x60' ∈ s.toList) :
    clean_ai_response s = pyStrip s := by
  simp only [clean_ai_response]
  rw [subThought_no_lt s.toList h1, subAngle_no_lt s.toList h1, strK_mk_toList]
  rw [strReplace_not_contained s _ _ (charsWithin_false_of_not_mem _ _ '\x60' (by decide) h2)]
  rw [strReplace_not_contained s _ _ (charsWithin_false_of_not_mem _ _ '\x60' (by decide) h2)]

/-! ## Claim C9 -/

/-- C9: the sandboxed executor's temporary directory and the materialized
script file are removed on every exit path — normal completion with any exit
code, timeout, or an exception raised during execution (`beh` ranges over all
three) — so no temporary execution artifacts remain after the call, and the
execution outcome is passed through unchanged. -/
theorem executor_cleanup_unconditional (tmpdir : String) (beh : ExecBehavior)
    (fs : List String) :
    ((run_clean_script_fs tmpdir beh fs).2.all (fun p => !isTmpArtifact tmpdir p)) = true ∧
    ((run_clean_script_fs tmpdir beh fs).2.contains tmpdir) = false ∧
    ((run_clean_script_fs tmpdir beh fs).2.contains (tmpdir ++ "/clean_script.py")) = false ∧
    (run_clean_script_fs tmpdir beh fs).1 = beh.result := by
  refine ⟨?_, ?_, ?_, rfl⟩
  · rw [List.all_eq_true]
    intro p hp
    exact (List.mem_filter.mp hp).2
  · by_contra hne
    have hmem : tmpdir ∈ (run_clean_script_fs tmpdir beh fs).2 := by
      rcases hv : (run_clean_script_fs tmpdir beh fs).2.contains tmpdir with _ | _
      · exact absurd hv hne
      · exact List.elem_iff.mp hv
    have hart := (List.mem_filter.mp hmem).2
    simp [isTmpArtifact] at hart
  · by_contra hne
    have hmem : (tmpdir ++ "/clean_script.py") ∈ (run_clean_script_fs tmpdir beh fs).2 := by
      rcases hv : (run_clean_script_fs tmpdir beh fs).2.contains (tmpdir ++ "/clean_script.py") with _ | _
      · exact absurd hv hne
      · exact List.elem_iff.mp hv
    have hart := (List.mem_filter.mp hmem).2
    have hstarts : strStarts (tmpdir ++ "/clean_script.py") (tmpdir ++ "/") = true := by
      unfold strStarts
      have hsplit : tmpdir ++ "/clean_script.py" = (tmpdir ++ "/") ++ "clean_script.py" :=
        (String.append_assoc tmpdir "/" "clean_script.py").symm
      rw [hsplit, strK_toList_append]
      exact charsPre_self_append _ _
    simp [isTmpArtifact, hstarts] at hart

/-! ## Claim C7 -/

/-- C7: `script_contract_ok` evaluates the size rule, the required-shape
rules and every denylist token independently with no short-circuit: the
returned violation list is the concatenation of the three families computed
in isolation, every forbidden token present in the text contributes its own
violation, and the pass flag is true exactly when the violation list is
empty. -/
theorem contract_checker_no_short_circuit (code : String) (mb : Nat) :
    (script_contract_ok code mb).2 =
      sizeViolations code mb ++ shapeViolations code ++ denylistViolations code ∧
    ((script_contract_ok code mb).1 = true ↔ (script_contract_ok code mb).2 = []) ∧
    (∀ s, s ∈ FORBIDDEN_SNIPPETS → strContains code s = true →
      forbiddenMsg s ∈ (script_contract_ok code mb).2) := by
  refine ⟨?_, ?_, ?_⟩
  · simp only [script_contract_ok, sizeViolations, shapeViolations, denylistViolations]
    split_ifs <;> simp
  · simp only [script_contract_ok]
    exact List.isEmpty_iff
  · intro s hs hc
    simp only [script_contract_ok]
    refine List.mem_append_right _ (List.mem_filterMap.mpr ⟨s, hs, ?_⟩)
    rw [hc]
    rfl

/-- Witness for C7 at a concrete program containing the token
`subprocess`. -/
theorem contract_checker_no_short_circuit_witness :
    forbiddenMsg "subprocess" ∈ (script_contract_ok forbiddenProg 40000).2 ∧
    (script_contract_ok forbiddenProg 40000).2 =
      sizeViolations forbiddenProg 40000 ++ shapeViolations forbiddenProg ++
        denylistViolations forbiddenProg :=
  ⟨(contract_checker_no_short_circuit forbiddenProg 40000).2.2 "subprocess"
      (by decide) (by decide),
   (contract_checker_no_short_circuit forbiddenProg 40000).1⟩

/-! ## Claim C6 -/

/-- C6 counterexample: a program whose guard never invokes the entry routine
at all (after deleting the definition header `def clean(`, no call-like
occurrence `clean(` remains) nevertheless passes `script_contract_ok` with no
violations — refuting the claim that such a program does not pass the
check. -/
theorem contract_guard_cex :
    script_contract_ok guardNoCallProg 40000 = (true, []) ∧
    strContains (strReplace guardNoCallProg "def clean(" "") "clean(" = false := by
  decide

/-- C6 (amended): `script_contract_ok` reports the missing-definition
violation whenever the text lacks the substring `def clean(`, and reports the
missing-guard violation whenever the text contains neither main-guard
substring (double- or single-quoted); these checks are purely substring
based, so a program containing both substrings has no shape violations
regardless of whether its guard actually invokes the entry routine or with
how many arguments. -/
theorem contract_shape_substring_amended (code : String) (mb : Nat) :
    (strContains code "def clean(" = false →
      defCleanMsg ∈ (script_contract_ok code mb).2) ∧
    (strContains code mainGuardDq = false → strContains code mainGuardSq = false →
      mainGuardMsg ∈ (script_contract_ok code mb).2) ∧
    (strContains code "def clean(" = true →
      (strContains code mainGuardDq = true ∨ strContains code mainGuardSq = true) →
      shapeViolations code = []) := by
  refine ⟨?_, ?_, ?_⟩
  · intro h
    simp only [script_contract_ok]
    split_ifs <;> simp_all
  · intro hb hc
    simp only [script_contract_ok]
    split_ifs <;> simp_all
  · intro hdef hguard
    have hname : strContains code "__name__" = true := by
      rcases hguard with hg | hg
      · exact strContains_trans code mainGuardDq "__name__" hg (by decide)
      · exact strContains_trans code mainGuardSq "__name__" hg (by decide)
    simp only [shapeViolations, hdef, hname]
    rcases hguard with hg | hg <;> simp [hg]

/-- Witness for C6's amended theorem at a concrete program lacking both the
definition and the guard. -/
theorem contract_shape_substring_amended_witness :
    defCleanMsg ∈ (script_contract_ok trivialScript 40000).2 ∧
    mainGuardMsg ∈ (script_contract_ok trivialScript 40000).2 ∧
    shapeViolations guardNoCallProg = [] :=
  ⟨(contract_shape_substring_amended trivialScript 40000).1 (by decide),
   (contract_shape_substring_amended trivialScript 40000).2.1 (by decide) (by decide),
   (contract_shape_substring_amended guardNoCallProg 40000).2.2 (by decide)
     (Or.inl (by decide))⟩

/-! ## Claim C10 -/

/-- C10 counterexample: on a plain two-line program containing `a < b` and
later `c > d`, `clean_ai_response` deletes the span from the `<` through the
`>` (the regex `<[^>]+>` matches it), so cleaning is not the identity on this
fence-free, tag-free program. -/
theorem clean_response_angle_cex :
    clean_ai_response angleProg = "x = a  d" ∧
    ¬ clean_ai_response angleProg = angleProg := by
  decide

/-- C10 (amended): the response cleaner is the identity up to
leading/trailing-whitespace stripping on program text that contains no
backquote and no `<` character; a program containing a `<` later followed by
a `>` instead has the whole span between them deleted (see the
counterexample). -/
theorem clean_response_identity_amended (s : String)
    (h : (s.toList.all fun c => !(c == '<' || c == '\x60')) = true) :
    clean_ai_response s = pyStrip s := by
  have hb : ∀ c ∈ s.toList, ¬ c = '<' ∧ ¬ c = '\x60' := by
    intro c hc
    have hcv := List.all_eq_true.mp h c hc
    constructor <;> (intro hq; subst hq; simp at hcv)
  exact clean_ai_response_of_plain s (fun c hc => (hb c hc).1)
    (fun hm => (hb _ hm).2 rfl)

/-- Witness for C10's amended theorem on a concrete plain program. -/
theorem clean_response_identity_amended_witness :
    clean_ai_response noAngleProg = pyStrip noAngleProg ∧
    pyStrip noAngleProg = noAngleProg :=
  ⟨clean_response_identity_amended noAngleProg (by decide), by decide⟩

/-! ## Claim C5 -/

/-- C5 counterexample: the dynamic-schema output validator accepts an output
table whose required identity column (`customer_id`, described as an
identifier) contains a missing value and whose date column value is
unparseable — it reports no error at all, refuting the claim that bad
identity or date values are always reported. -/
theorem validator_value_checks_cex :
    validate_output_csv_dyn "out.csv" (.table dfNullId) schemaIdDate = (true, []) := by
  decide

/-- C5 (amended): the dynamic-schema validator checks only column presence
and non-emptiness — its error list is exactly the concatenation of those two
independent families, with no value-level checks — while the fixed-schema
validator of `llm_normalizer.py` does report null `customer_id` values and
unparseable `event_date` values; in both validators all failing checks are
reported together in one list (a concatenation of independent families), and
the fixed-schema pass flag holds exactly when that list is empty. -/
theorem validator_families_amended (sem : PandasSem) (path : String)
    (df : DataFrame) (schema : List (String × String)) :
    (validate_output_csv_dyn path (.table df) schema).2 =
      dynMissingErrors df schema ++ dynEmptyErrors df ∧
    (validate_output_csv_std sem path (.table df)).2 =
      stdMissingErrors df ++ stdCustomerErrors df ++ stdDateErrors sem df ++
        stdAmountErrors sem df ++ stdChurnErrors sem df ∧
    ((validate_output_csv_std sem path (.table df)).1 = true ↔
      (validate_output_csv_std sem path (.table df)).2 = []) ∧
    (df.cols.contains "customer_id" = true →
      0 < (colCells df "customer_id").countP (fun c => c.isNone) →
      custNullMsg ((colCells df "customer_id").countP (fun c => c.isNone)) ∈
        (validate_output_csv_std sem path (.table df)).2) ∧
    (df.cols.contains "event_date" = true →
      0 < (colCells df "event_date").countP
            (fun c => match c with | none => true | some s => !sem.dateOk s) →
      dateInvalidMsg ((colCells df "event_date").countP
            (fun c => match c with | none => true | some s => !sem.dateOk s)) ∈
        (validate_output_csv_std sem path (.table df)).2) := by
  have hdyn : (validate_output_csv_dyn path (.table df) schema).2 =
      dynMissingErrors df schema ++ dynEmptyErrors df := by
    simp only [validate_output_csv_dyn, dynMissingErrors, dynEmptyErrors,
      ite_append_extrude]
    simp only [List.nil_append, List.append_assoc]
  have hstd : (validate_output_csv_std sem path (.table df)).2 =
      stdMissingErrors df ++ stdCustomerErrors df ++ stdDateErrors sem df ++
        stdAmountErrors sem df ++ stdChurnErrors sem df := by
    simp only [validate_output_csv_std, stdMissingErrors, stdCustomerErrors,
      stdDateErrors, stdAmountErrors, stdChurnErrors, ite_append_extrude]
    simp only [List.nil_append, List.append_assoc]
  refine ⟨hdyn, hstd, ?_, ?_, ?_⟩
  · simp only [validate_output_csv_std]
    exact List.isEmpty_iff
  · intro hcol hcount
    rw [hstd]
    have hcust : stdCustomerErrors df =
        [custNullMsg ((colCells df "customer_id").countP (fun c => c.isNone))] := by
      simp [stdCustomerErrors, List.elem_iff.mp hcol, hcount]
    simp [hcust]
  · intro hcol hcount
    rw [hstd]
    have hdate : stdDateErrors sem df =
        [dateInvalidMsg ((colCells df "event_date").countP
          (fun c => match c with | none => true | some s => !sem.dateOk s))] := by
      simp [stdDateErrors, List.elem_iff.mp hcol, hcount]
    simp [hdate]

/-- Witness for C5's amended theorem: on a concrete table with one null
`customer_id` and one unparseable `event_date`, the fixed-schema validator
reports both value errors (together with the missing-columns error). -/
theorem validator_families_amended_witness :
    custNullMsg ((colCells dfNullId "customer_id").countP (fun c => c.isNone)) ∈
      (validate_output_csv_std semStrict "out.csv" (.table dfNullId)).2 ∧
    dateInvalidMsg ((colCells dfNullId "event_date").countP
        (fun c => match c with | none => true | some s => !semStrict.dateOk s)) ∈
      (validate_output_csv_std semStrict "out.csv" (.table dfNullId)).2 :=
  ⟨(validator_families_amended semStrict "out.csv" dfNullId schemaIdDate).2.2.2.1
      (by decide) (by decide),
   (validator_families_amended semStrict "out.csv" dfNullId schemaIdDate).2.2.2.2
      (by decide) (by decide)⟩

/-! ## Orchestrator step lemmas -/

theorem bool_eq_true_of_ne_false {b : Bool} (h : ¬ b = false) : b = true := by
  cases b
  · exact absurd rfl h
  · rfl

theorem bool_eq_false_of_ne_true {b : Bool} (h : ¬ b = true) : b = false := by
  cases b
  · rfl
  · exact absurd rfl h

theorem drop_len_append {α : Type} (l1 l2 : List α) (n : Nat) (h : l1.length = n) :
    (l1 ++ l2).drop n = l2 := by
  subst h
  exact List.drop_left l1 l2

theorem runFrom_zero (oracle : Nat → AttemptOracle) (raw ocsv : String)
    (schema : List (String × String)) (sts maxA attempt : Nat) (st : LoopState) :
    runFrom oracle raw ocsv schema sts maxA attempt 0 st =
      (.failure ⟨maxA, st.last_error_text, st.last_error_list, st.last_script,
        st.last_stdout⟩, []) := rfl

theorem runFrom_genError (oracle : Nat → AttemptOracle) (raw ocsv : String)
    (schema : List (String × String)) (sts maxA attempt rem : Nat) (st : LoopState)
    (e : GenError) (hg : (oracle attempt).gen = .error e) :
    runFrom oracle raw ocsv schema sts maxA attempt (rem + 1) st =
      (.exn e, [attemptRecOf raw (oracle attempt) st]) := by
  simp [runFrom, hg, attemptRecOf, attemptScript, execInvokedOf]

theorem runFrom_continue (oracle : Nat → AttemptOracle) (raw ocsv : String)
    (schema : List (String × String)) (sts maxA attempt rem : Nat) (st : LoopState)
    (h : attemptContinues (oracle attempt) ocsv schema = true) :
    runFrom oracle raw ocsv schema sts maxA attempt (rem + 1) st =
      ((runFrom oracle raw ocsv schema sts maxA (attempt + 1) rem
          (nextState (oracle attempt) ocsv schema sts st)).1,
       attemptRecOf raw (oracle attempt) st ::
         (runFrom oracle raw ocsv schema sts maxA (attempt + 1) rem
           (nextState (oracle attempt) ocsv schema sts st)).2) := by
  cases hg : (oracle attempt).gen with
  | error e =>
    exfalso
    simp [attemptContinues, genOk, hg] at h
  | ok rawr =>
    have hpass : attemptPasses (oracle attempt) ocsv schema = false := by
      cases hv : attemptPasses (oracle attempt) ocsv schema with
      | false => rfl
      | true => simp [attemptContinues, hv] at h
    by_cases hc : (script_contract_ok (clean_ai_response rawr) 40000).1 = false
    · simp [runFrom, hg, hc, nextState, attemptRecOf, attemptScript, attemptDiagText,
        attemptDiagList, stdoutAfter, execInvokedOf]
    · have hcT : (script_contract_ok (clean_ai_response rawr) 40000).1 = true :=
        bool_eq_true_of_ne_false hc
      cases hx : (oracle attempt).exec with
      | timedOut =>
        simp [runFrom, hg, hcT, hx, nextState, attemptRecOf, attemptScript,
          attemptDiagText, attemptDiagList, stdoutAfter, execInvokedOf]
      | raised m =>
        simp [runFrom, hg, hcT, hx, nextState, attemptRecOf, attemptScript,
          attemptDiagText, attemptDiagList, stdoutAfter, execInvokedOf]
      | finished rc sout serr =>
        by_cases hrc : rc = 0
        · subst hrc
          have hv : (validate_output_csv_dyn ocsv (oracle attempt).out schema).1 = false := by
            cases hvv : (validate_output_csv_dyn ocsv (oracle attempt).out schema).1 with
            | false => rfl
            | true =>
              exfalso
              simp [attemptPasses, hg, hcT, hx, hvv] at hpass
          simp [runFrom, hg, hcT, hx, hv, nextState, attemptRecOf, attemptScript,
            attemptDiagText, attemptDiagList, stdoutAfter, execInvokedOf]
        · simp [runFrom, hg, hcT, hx, hrc, nextState, attemptRecOf, attemptScript,
            attemptDiagText, attemptDiagList, stdoutAfter, execInvokedOf]

theorem runFrom_success (oracle : Nat → AttemptOracle) (raw ocsv : String)
    (schema : List (String × String)) (sts maxA attempt rem : Nat) (st : LoopState)
    (h : attemptPasses (oracle attempt) ocsv schema = true) :
    runFrom oracle raw ocsv schema sts maxA attempt (rem + 1) st =
      (.success ⟨attempt, stdoutOf (oracle attempt),
        (attemptScript (oracle attempt)).getD ""⟩,
       [attemptRecOf raw (oracle attempt) st]) := by
  cases hg : (oracle attempt).gen with
  | error e => simp [attemptPasses, hg] at h
  | ok rawr =>
    have hcT : (script_contract_ok (clean_ai_response rawr) 40000).1 = true := by
      cases hcv : (script_contract_ok (clean_ai_response rawr) 40000).1 with
      | false => simp [attemptPasses, hg, hcv] at h
      | true => rfl
    cases hx : (oracle attempt).exec with
    | timedOut => simp [attemptPasses, hg, hx] at h
    | raised m => simp [attemptPasses, hg, hx] at h
    | finished rc sout serr =>
      have hrc : rc = 0 := by
        by_contra hrcne
        simp [attemptPasses, hg, hx, hrcne] at h
      subst hrc
      have hv : (validate_output_csv_dyn ocsv (oracle attempt).out schema).1 = true := by
        cases hvv : (validate_output_csv_dyn ocsv (oracle attempt).out schema).1 with
        | false => simp [attemptPasses, hg, hcT, hx, hvv] at h
        | true => rfl
      simp [runFrom, hg, hcT, hx, hv, attemptRecOf, attemptScript, stdoutOf,
        execInvokedOf]

theorem attempt_trichotomy (o : AttemptOracle) (ocsv : String)
    (schema : List (String × String)) :
    (∃ e, o.gen = .error e) ∨ attemptPasses o ocsv schema = true ∨
      attemptContinues o ocsv schema = true := by
  cases hg : o.gen with
  | error e => exact Or.inl ⟨e, rfl⟩
  | ok raw =>
    cases hp : attemptPasses o ocsv schema with
    | true => exact Or.inr (Or.inl rfl)
    | false => exact Or.inr (Or.inr (by simp [attemptContinues, genOk, hg, hp]))

theorem runFrom_trace_le (oracle : Nat → AttemptOracle) (raw ocsv : String)
    (schema : List (String × String)) (sts maxA : Nat) :
    ∀ (rem attempt : Nat) (st : LoopState),
      ((runFrom oracle raw ocsv schema sts maxA attempt rem st).2).length ≤ rem := by
  intro rem
  induction rem with
  | zero => intro attempt st; simp [runFrom_zero]
  | succ n ih =>
    intro attempt st
    rcases attempt_trichotomy (oracle attempt) ocsv schema with ⟨e, hg⟩ | hp | hcont
    · rw [runFrom_genError oracle raw ocsv schema sts maxA attempt n st e hg]
      simp
    · rw [runFrom_success oracle raw ocsv schema sts maxA attempt n st hp]
      simp
    · rw [runFrom_continue oracle raw ocsv schema sts maxA attempt n st hcont]
      simpa using Nat.succ_le_succ (ih (attempt + 1) _)

theorem runFrom_reach (oracle : Nat → AttemptOracle) (raw ocsv : String)
    (schema : List (String × String)) (sts maxA : Nat) :
    ∀ (i attempt rem : Nat) (st : LoopState),
      (∀ j, j < i → attemptContinues (oracle (attempt + j)) ocsv schema = true) →
      i ≤ rem →
      ∃ st' pre,
        runFrom oracle raw ocsv schema sts maxA attempt rem st =
          ((runFrom oracle raw ocsv schema sts maxA (attempt + i) (rem - i) st').1,
           pre ++ (runFrom oracle raw ocsv schema sts maxA (attempt + i) (rem - i) st').2) ∧
        pre.length = i ∧
        (i = 0 → st' = st) ∧
        (0 < i →
          st'.last_script = attemptScript (oracle (attempt + i - 1)) ∧
          st'.last_error_text = attemptDiagText (oracle (attempt + i - 1)) sts ∧
          st'.last_error_list = attemptDiagList (oracle (attempt + i - 1)) ocsv schema) := by
  intro i
  induction i with
  | zero =>
    intro attempt rem st hc hle
    exact ⟨st, [], by simp, rfl, fun _ => rfl, fun h0 => absurd h0 (by omega)⟩
  | succ n ih =>
    intro attempt rem st hc hle
    obtain ⟨rem', rfl⟩ : ∃ rem', rem = rem' + 1 := ⟨rem - 1, by omega⟩
    have hcont : attemptContinues (oracle attempt) ocsv schema = true := by
      have h0 := hc 0 (by omega)
      simpa using h0
    have hstep := runFrom_continue oracle raw ocsv schema sts maxA attempt rem' st hcont
    have hc2 : ∀ j, j < n → attemptContinues (oracle (attempt + 1 + j)) ocsv schema = true := by
      intro j hj
      have hjj := hc (j + 1) (by omega)
      have heq : attempt + (j + 1) = attempt + 1 + j := by omega
      rwa [heq] at hjj
    obtain ⟨st', pre, hrun, hlen, hz, hpos⟩ :=
      ih (attempt + 1) rem' (nextState (oracle attempt) ocsv schema sts st) hc2 (by omega)
    refine ⟨st', attemptRecOf raw (oracle attempt) st :: pre, ?_, ?_, ?_, ?_⟩
    · have h1 : attempt + (n + 1) = attempt + 1 + n := by omega
      have h2 : rem' + 1 - (n + 1) = rem' - n := by omega
      rw [hstep, hrun, h1, h2]
      simp
    · simp [hlen]
    · intro h0; omega
    · intro _
      cases n with
      | zero =>
        have hst0 : st' = nextState (oracle attempt) ocsv schema sts st := hz rfl
        subst hst0
        have heq : attempt + (0 + 1) - 1 = attempt := by omega
        rw [heq]
        exact ⟨rfl, rfl, rfl⟩
      | succ m =>
        have hfld := hpos (by omega)
        have heq : attempt + (m + 1 + 1) - 1 = attempt + 1 + (m + 1) - 1 := by omega
        rw [heq]
        exact hfld

theorem runFrom_head (oracle : Nat → AttemptOracle) (raw ocsv : String)
    (schema : List (String × String)) (sts maxA attempt rem : Nat) (st : LoopState) :
    ∃ c e rest, (runFrom oracle raw ocsv schema sts maxA attempt (rem + 1) st).2 =
      (⟨build_user_prompt raw st.last_script st.last_error_text st.last_error_list,
        c, e⟩ : AttemptRec) :: rest := by
  rcases attempt_trichotomy (oracle attempt) ocsv schema with ⟨e, hg⟩ | hp | hcont
  · rw [runFrom_genError oracle raw ocsv schema sts maxA attempt rem st e hg]
    exact ⟨attemptScript (oracle attempt), execInvokedOf (oracle attempt), [], rfl⟩
  · rw [runFrom_success oracle raw ocsv schema sts maxA attempt rem st hp]
    exact ⟨attemptScript (oracle attempt), execInvokedOf (oracle attempt), [], rfl⟩
  · rw [runFrom_continue oracle raw ocsv schema sts maxA attempt rem st hcont]
    exact ⟨attemptScript (oracle attempt), execInvokedOf (oracle attempt), _, rfl⟩

theorem buildPrompt_contains_script (raw s : String) (t : Option String)
    (l : List String) :
    strContains (build_user_prompt raw (some s) t l) s = true := by
  unfold build_user_prompt
  apply joinLines_contains
  simp [userPromptParts]

/-! ## Claim C1 -/

/-- C1: for every attempt budget `N`, the orchestrator starts at most `N`
attempts — one generation call each, so at most `N` generation calls — and
when every attempt's generation returns but no attempt passes all three
gates (contract check, exit code 0, output validation), it returns the
failure outcome whose `attempts` field equals `N`. -/
theorem attempt_budget_bound (oracle : Nat → AttemptOracle) (raw ocsv : String)
    (schema : List (String × String)) (sts N : Nat)
    (hgen : ∀ k, 1 ≤ k → k ≤ N → genOk (oracle k) = true)
    (hfail : ∀ k, 1 ≤ k → k ≤ N → attemptPasses (oracle k) ocsv schema = false) :
    ((normalize_with_dynamic_llm oracle raw ocsv schema sts N).2).length ≤ N ∧
    ∃ m, (normalize_with_dynamic_llm oracle raw ocsv schema sts N).1 = .failure m ∧
      m.attempts = N := by
  constructor
  · exact runFrom_trace_le oracle raw ocsv schema sts N N 1 initState
  · have hcont : ∀ j, j < N → attemptContinues (oracle (1 + j)) ocsv schema = true := by
      intro j hj
      have hgj := hgen (1 + j) (by omega) (by omega)
      have hfj := hfail (1 + j) (by omega) (by omega)
      simp [attemptContinues, hgj, hfj]
    obtain ⟨st', pre, hrun, hlen, hz, hpos⟩ :=
      runFrom_reach oracle raw ocsv schema sts N N 1 N initState hcont (le_refl N)
    refine ⟨⟨N, st'.last_error_text, st'.last_error_list, st'.last_script,
      st'.last_stdout⟩, ?_, rfl⟩
    show (runFrom oracle raw ocsv schema sts N 1 N initState).1 = _
    rw [hrun, show N - N = 0 from by omega,
      runFrom_zero oracle raw ocsv schema sts N (1 + N) st']

/-- Witness for C1: with a two-attempt budget and every attempt failing the
contract check, the run makes at most two generation calls and fails with
`attempts = 2`. -/
theorem attempt_budget_bound_witness :
    ((normalize_with_dynamic_llm oracleAllFail "S" "out.csv" schemaOne 60 2).2).length ≤ 2 ∧
    ∃ m, (normalize_with_dynamic_llm oracleAllFail "S" "out.csv" schemaOne 60 2).1 =
      .failure m ∧ m.attempts = 2 :=
  attempt_budget_bound oracleAllFail "S" "out.csv" schemaOne 60 2
    (fun _ _ _ => rfl)
    (fun _ _ _ =>
      (by decide :
        attemptPasses ⟨.ok trivialScript, .timedOut, .absent⟩ "out.csv" schemaOne = false))

/-! ## Claim C4 -/

/-- C4: if the loop reaches attempt `k` (all earlier attempts failed a gate
and continued) and attempt `k` passes the contract check, executes with exit
code 0 and validates, the orchestrator returns the success outcome with
`attempts = k` on that exact attempt, and the trace has exactly `k` records —
no generation call is made after attempt `k`. -/
theorem success_terminates_on_attempt (oracle : Nat → AttemptOracle)
    (raw ocsv : String) (schema : List (String × String)) (sts N k : Nat)
    (hk1 : 1 ≤ k) (hkN : k ≤ N)
    (hprev : ∀ j, 1 ≤ j → j < k → attemptContinues (oracle j) ocsv schema = true)
    (hpass : attemptPasses (oracle k) ocsv schema = true) :
    (normalize_with_dynamic_llm oracle raw ocsv schema sts N).1 =
      .success ⟨k, stdoutOf (oracle k), (attemptScript (oracle k)).getD ""⟩ ∧
    ((normalize_with_dynamic_llm oracle raw ocsv schema sts N).2).length = k := by
  have hcont : ∀ j, j < k - 1 → attemptContinues (oracle (1 + j)) ocsv schema = true := by
    intro j hj
    exact hprev (1 + j) (by omega) (by omega)
  obtain ⟨st', pre, hrun, hlen, hz, hpos⟩ :=
    runFrom_reach oracle raw ocsv schema sts N (k - 1) 1 N initState hcont (by omega)
  obtain ⟨rem', hrem⟩ : ∃ rem', N - (k - 1) = rem' + 1 := ⟨N - k, by omega⟩
  have hidx : 1 + (k - 1) = k := by omega
  rw [hrem, hidx] at hrun
  have hsucc := runFrom_success oracle raw ocsv schema sts N k rem' st' hpass
  constructor
  · show (runFrom oracle raw ocsv schema sts N 1 N initState).1 = _
    rw [hrun, hsucc]
  · show ((runFrom oracle raw ocsv schema sts N 1 N initState).2).length = k
    rw [hrun, hsucc]
    simp [hlen]
    omega

/-- Witness for C4: with every attempt passing all gates, the run succeeds on
attempt 1 with a one-record trace. -/
theorem success_terminates_on_attempt_witness :
    (normalize_with_dynamic_llm oraclePassFirst "S" "out.csv" schemaOne 60 2).1 =
      .success ⟨1, stdoutOf (oraclePassFirst 1),
        (attemptScript (oraclePassFirst 1)).getD ""⟩ ∧
    ((normalize_with_dynamic_llm oraclePassFirst "S" "out.csv" schemaOne 60 2).2).length = 1 :=
  success_terminates_on_attempt oraclePassFirst "S" "out.csv" schemaOne 60 2 1
    (by omega) (by omega)
    (fun j h1 h2 => absurd (Nat.lt_of_le_of_lt h1 h2) (lt_irrefl 1)) (by decide)

/-! ## Claim C3 -/

/-- C3: if the loop reaches attempt `k` and the contract check of the cleaned
generated program fails there, then the executor is not invoked on that
attempt (`execInvoked = false` in its trace record), and — when budget
remains — the next attempt's prompt is built from exactly the contract
violations as diagnostics. -/
theorem contract_fail_skips_executor (oracle : Nat → AttemptOracle)
    (raw ocsv : String) (schema : List (String × String)) (sts N k : Nat)
    (raw_k : String) (hk1 : 1 ≤ k) (hkN : k ≤ N)
    (hprev : ∀ j, 1 ≤ j → j < k → attemptContinues (oracle j) ocsv schema = true)
    (hg : (oracle k).gen = .ok raw_k)
    (hcf : (script_contract_ok (clean_ai_response raw_k) 40000).1 = false) :
    ∃ rec rest,
      ((normalize_with_dynamic_llm oracle raw ocsv schema sts N).2).drop (k - 1) =
        rec :: rest ∧
      rec.execInvoked = false ∧
      rec.cleaned = some (clean_ai_response raw_k) ∧
      (k < N →
        ∃ rec2 rest2,
          ((normalize_with_dynamic_llm oracle raw ocsv schema sts N).2).drop k =
            rec2 :: rest2 ∧
          rec2.prompt = build_user_prompt raw (some (clean_ai_response raw_k))
            (some contractFailText)
            (script_contract_ok (clean_ai_response raw_k) 40000).2) := by
  have hcontk : attemptContinues (oracle k) ocsv schema = true := by
    simp [attemptContinues, genOk, hg, attemptPasses, hcf]
  have hcont : ∀ j, j < k - 1 → attemptContinues (oracle (1 + j)) ocsv schema = true := by
    intro j hj
    exact hprev (1 + j) (by omega) (by omega)
  obtain ⟨st', pre, hrun, hlen, hz, hpos⟩ :=
    runFrom_reach oracle raw ocsv schema sts N (k - 1) 1 N initState hcont (by omega)
  obtain ⟨rem', hrem⟩ : ∃ rem', N - (k - 1) = rem' + 1 := ⟨N - k, by omega⟩
  have hidx : 1 + (k - 1) = k := by omega
  rw [hrem, hidx] at hrun
  have hstep := runFrom_continue oracle raw ocsv schema sts N k rem' st' hcontk
  have htrace : (normalize_with_dynamic_llm oracle raw ocsv schema sts N).2 =
      pre ++ attemptRecOf raw (oracle k) st' ::
        (runFrom oracle raw ocsv schema sts N (k + 1) rem'
          (nextState (oracle k) ocsv schema sts st')).2 := by
    show (runFrom oracle raw ocsv schema sts N 1 N initState).2 = _
    rw [hrun, hstep]
  refine ⟨attemptRecOf raw (oracle k) st',
    (runFrom oracle raw ocsv schema sts N (k + 1) rem'
      (nextState (oracle k) ocsv schema sts st')).2, ?_, ?_, ?_, ?_⟩
  · rw [htrace, ← hlen, List.drop_left]
  · simp [attemptRecOf, execInvokedOf, hg, hcf]
  · simp [attemptRecOf, attemptScript, hg]
  · intro hkN2
    obtain ⟨rem2, hrem2⟩ : ∃ rem2, rem' = rem2 + 1 := ⟨rem' - 1, by omega⟩
    rw [htrace]
    have hsplit2 : pre ++ attemptRecOf raw (oracle k) st' ::
        (runFrom oracle raw ocsv schema sts N (k + 1) rem'
          (nextState (oracle k) ocsv schema sts st')).2 =
        (pre ++ [attemptRecOf raw (oracle k) st']) ++
        (runFrom oracle raw ocsv schema sts N (k + 1) rem'
          (nextState (oracle k) ocsv schema sts st')).2 := by
      simp
    rw [hsplit2]
    have hlen2 : (pre ++ [attemptRecOf raw (oracle k) st']).length = k := by
      simp [hlen]
      omega
    rw [drop_len_append _ _ k hlen2, hrem2]
    obtain ⟨c, e2, rest2, hhead⟩ := runFrom_head oracle raw ocsv schema sts N (k + 1)
      rem2 (nextState (oracle k) ocsv schema sts st')
    refine ⟨_, rest2, hhead, ?_⟩
    simp [nextState, attemptScript, attemptDiagText, attemptDiagList, hg, hcf]

/-- Witness for C3: attempt 1 of a two-attempt run fails the contract check;
its record shows the executor was not invoked and attempt 2's prompt carries
the contract violations. -/
theorem contract_fail_skips_executor_witness :
    ∃ rec rest,
      ((normalize_with_dynamic_llm oracleAllFail "S" "out.csv" schemaOne 60 2).2).drop 0 =
        rec :: rest ∧
      rec.execInvoked = false ∧
      rec.cleaned = some (clean_ai_response trivialScript) ∧
      (1 < 2 →
        ∃ rec2 rest2,
          ((normalize_with_dynamic_llm oracleAllFail "S" "out.csv" schemaOne 60 2).2).drop 1 =
            rec2 :: rest2 ∧
          rec2.prompt = build_user_prompt "S" (some (clean_ai_response trivialScript))
            (some contractFailText)
            (script_contract_ok (clean_ai_response trivialScript) 40000).2) :=
  contract_fail_skips_executor oracleAllFail "S" "out.csv" schemaOne 60 2 1
    trivialScript (by omega) (by omega)
    (fun j h1 h2 => absurd (Nat.lt_of_le_of_lt h1 h2) (lt_irrefl 1)) rfl (by decide)

/-! ## Claim C8 -/

/-- C8: when the loop reaches attempt `k ≥ 2`, the prompt of attempt `k` is
built from exactly attempt `k-1`'s cleaned program and attempt `k-1`'s
diagnostics — functions of the `(k-1)`-st oracle entry alone, so diagnostics
from attempts before `k-1` never appear — the prompt contains the complete
previous program as a substring, and attempt 1's prompt is built with no
previous program and no diagnostics. -/
theorem repair_prompt_latest_only (oracle : Nat → AttemptOracle)
    (raw ocsv : String) (schema : List (String × String)) (sts N k : Nat)
    (hk2 : 2 ≤ k) (hkN : k ≤ N)
    (hprev : ∀ j, 1 ≤ j → j < k → attemptContinues (oracle j) ocsv schema = true) :
    ∃ rec rest,
      ((normalize_with_dynamic_llm oracle raw ocsv schema sts N).2).drop (k - 1) =
        rec :: rest ∧
      rec.prompt = build_user_prompt raw (attemptScript (oracle (k - 1)))
        (attemptDiagText (oracle (k - 1)) sts)
        (attemptDiagList (oracle (k - 1)) ocsv schema) ∧
      strContains rec.prompt ((attemptScript (oracle (k - 1))).getD "") = true ∧
      ∃ rec1 rest1,
        (normalize_with_dynamic_llm oracle raw ocsv schema sts N).2 = rec1 :: rest1 ∧
        rec1.prompt = build_user_prompt raw none none [] := by
  have hcont : ∀ j, j < k - 1 → attemptContinues (oracle (1 + j)) ocsv schema = true := by
    intro j hj
    exact hprev (1 + j) (by omega) (by omega)
  obtain ⟨st', pre, hrun, hlen, hz, hpos⟩ :=
    runFrom_reach oracle raw ocsv schema sts N (k - 1) 1 N initState hcont (by omega)
  obtain ⟨rem', hrem⟩ : ∃ rem', N - (k - 1) = rem' + 1 := ⟨N - k, by omega⟩
  have hidx : 1 + (k - 1) = k := by omega
  rw [hrem, hidx] at hrun
  have hfld := hpos (by omega)
  have hidx2 : 1 + (k - 1) - 1 = k - 1 := by omega
  rw [hidx2] at hfld
  obtain ⟨c, e2, rest, hhead⟩ :=
    runFrom_head oracle raw ocsv schema sts N k rem' st'
  have htrace : (normalize_with_dynamic_llm oracle raw ocsv schema sts N).2 =
      pre ++ (runFrom oracle raw ocsv schema sts N k (rem' + 1) st').2 := by
    show (runFrom oracle raw ocsv schema sts N 1 N initState).2 = _
    rw [hrun]
  have hco : attemptContinues (oracle (k - 1)) ocsv schema = true :=
    hprev (k - 1) (by omega) (by omega)
  obtain ⟨raw1, hg1⟩ : ∃ r, (oracle (k - 1)).gen = .ok r := by
    cases hgv : (oracle (k - 1)).gen with
    | ok r => exact ⟨r, rfl⟩
    | error e =>
      exfalso
      simp [attemptContinues, genOk, hgv] at hco
  refine ⟨⟨build_user_prompt raw st'.last_script st'.last_error_text
    st'.last_error_list, c, e2⟩, rest, ?_, ?_, ?_, ?_⟩
  · rw [htrace, ← hlen, List.drop_left, hhead]
  · simp [hfld.1, hfld.2.1, hfld.2.2]
  · have hscript : attemptScript (oracle (k - 1)) = some (clean_ai_response raw1) := by
      simp [attemptScript, hg1]
    simp only [hfld.1, hfld.2.1, hfld.2.2, hscript, Option.getD_some]
    exact buildPrompt_contains_script raw (clean_ai_response raw1) _ _
  · obtain ⟨n0, hn0⟩ : ∃ n0, N = n0 + 1 := ⟨N - 1, by omega⟩
    subst hn0
    obtain ⟨c1, e1, rest1, hhead1⟩ :=
      runFrom_head oracle raw ocsv schema sts (n0 + 1) 1 n0 initState
    exact ⟨⟨build_user_prompt raw initState.last_script initState.last_error_text
      initState.last_error_list, c1, e1⟩, rest1, hhead1, rfl⟩

/-- Witness for C8 at a concrete two-attempt run whose first attempt fails
the contract check. -/
theorem repair_prompt_latest_only_witness :
    ∃ rec rest,
      ((normalize_with_dynamic_llm oracleAllFail "S" "out.csv" schemaOne 60 2).2).drop 1 =
        rec :: rest ∧
      rec.prompt = build_user_prompt "S" (attemptScript (oracleAllFail 1))
        (attemptDiagText (oracleAllFail 1) 60)
        (attemptDiagList (oracleAllFail 1) "out.csv" schemaOne) ∧
      strContains rec.prompt ((attemptScript (oracleAllFail 1)).getD "") = true ∧
      ∃ rec1 rest1,
        (normalize_with_dynamic_llm oracleAllFail "S" "out.csv" schemaOne 60 2).2 =
          rec1 :: rest1 ∧
        rec1.prompt = build_user_prompt "S" none none [] :=
  repair_prompt_latest_only oracleAllFail "S" "out.csv" schemaOne 60 2 2
    (by omega) (by omega)
    (fun j h1 h2 => by
      have hj : j = 1 := by omega
      subst hj
      decide)

/-! ## Claim C2 -/

/-- C2 counterexample: with a three-attempt budget, attempt 1 failing the
contract check and the generation service raising a timeout on attempt 2, the
orchestrator run ends with a propagated generation exception — not a terminal
outcome value — although the failure is not on the very first attempt. This
refutes the claim that generation failures after attempt 1 are caught,
counted, and retried. -/
theorem gen_error_propagates_cex :
    (normalize_with_dynamic_llm oracleGenErrSecond "S" "out.csv" schemaOne 60 3).1 =
      .exn .timeout := by
  decide

/-- C2 (amended): a generation-service failure (timeout or service error) on
any reached attempt — first or later — propagates to the caller as an
exception: the loop has no handler around the generation call, so the run
ends with `exn` after exactly the attempts started so far. Only executor
failures are caught and converted into repair diagnostics. -/
theorem gen_error_propagates_always (oracle : Nat → AttemptOracle)
    (raw ocsv : String) (schema : List (String × String)) (sts N k : Nat)
    (e : GenError) (hk1 : 1 ≤ k) (hkN : k ≤ N)
    (hprev : ∀ j, 1 ≤ j → j < k → attemptContinues (oracle j) ocsv schema = true)
    (hg : (oracle k).gen = .error e) :
    (normalize_with_dynamic_llm oracle raw ocsv schema sts N).1 = .exn e ∧
    ((normalize_with_dynamic_llm oracle raw ocsv schema sts N).2).length = k := by
  have hcont : ∀ j, j < k - 1 → attemptContinues (oracle (1 + j)) ocsv schema = true := by
    intro j hj
    exact hprev (1 + j) (by omega) (by omega)
  obtain ⟨st', pre, hrun, hlen, hz, hpos⟩ :=
    runFrom_reach oracle raw ocsv schema sts N (k - 1) 1 N initState hcont (by omega)
  obtain ⟨rem', hrem⟩ : ∃ rem', N - (k - 1) = rem' + 1 := ⟨N - k, by omega⟩
  have hidx : 1 + (k - 1) = k := by omega
  rw [hrem, hidx] at hrun
  have hexn := runFrom_genError oracle raw ocsv schema sts N k rem' st' e hg
  constructor
  · show (runFrom oracle raw ocsv schema sts N 1 N initState).1 = _
    rw [hrun, hexn]
  · show ((runFrom oracle raw ocsv schema sts N 1 N initState).2).length = k
    rw [hrun, hexn]
    simp [hlen]
    omega

/-- Witness for C2's amended theorem: the generation timeout on attempt 2 of
a three-attempt run propagates as `exn` with two attempts started. -/
theorem gen_error_propagates_always_witness :
    (normalize_with_dynamic_llm oracleGenErrSecond "S" "out.csv" schemaOne 60 3).1 =
      .exn .timeout ∧
    ((normalize_with_dynamic_llm oracleGenErrSecond "S" "out.csv" schemaOne 60 3).2).length = 2 :=
  gen_error_propagates_always oracleGenErrSecond "S" "out.csv" schemaOne 60 3 2
    .timeout (by omega) (by omega)
    (fun j h1 h2 => by
      have hj : j = 1 := by omega
      subst hj
      decide)
    rfl

end PulseRetention
